import Mathlib

/-!
A verification development for a small command-line argument parsing library.

The repository has two parallel implementations of the command machinery:

* the library crate (`src/flag.rs`, `src/command.rs`, `src/help.rs`,
  `src/version.rs`, `src/util.rs`), modelled below at top level;
* an older embedded copy inside the binary (`src/cmd/mod.rs`), modelled in
  namespace `Cmd`.

Each Rust item is embedded as a pure Lean function.  Process-level inputs
(the raw argument vector obtained from `env::args`) are passed explicitly;
the user callback `run` and the pluggable renderers are represented by an
`ExecOutcome` value recording which terminal branch `execute` took and the
text it emitted.  The build-time constants `CARGO_PKG_NAME` /
`CARGO_PKG_VERSION` (no `Cargo.toml` is part of the sources) are kept as
explicit string parameters `pkgName` / `pkgVersion`.

An `i32` payload is modelled as `Int` (the code never performs arithmetic on
it, so no wrap-around modelling is needed) and an `f32` payload by its bit
pattern as a `Nat` (the code never constructs or reads one).
-/

/-! ## Library model: `src/flag.rs` (namespace `Cancer` is the library
crate; a bare name `Flag` would collide with Mathlib) -/

namespace Cancer

def FLAG_SHORT_START : String := "-"

def FLAG_LONG_START : String := "--"

/-- `FlagValue` from `src/flag.rs`: `Bool(bool)`, `String(Option<String>)`,
`Int(Option<i32>)`, `Float(Option<f32>)`. -/
inductive FlagValue where
  | bool (b : Bool)
  | string (s : Option String)
  | int (i : Option Int)
  | float (bits : Option Nat)
  deriving DecidableEq, Repr

/-- The variant tag of a `FlagValue` (which constructor is active). -/
inductive FlagKind where
  | bool
  | string
  | int
  | float
  deriving DecidableEq, Repr

def FlagValue.kind : FlagValue → FlagKind
  | .bool _ => .bool
  | .string _ => .string
  | .int _ => .int
  | .float _ => .float

/-- `Flag` from `src/flag.rs`. -/
structure Flag where
  short : String
  long : String
  description : String
  value : FlagValue
  deriving DecidableEq, Repr

/-- `Flag::new` from `src/flag.rs`. -/
def Flag.new (short long description : String) (value : FlagValue) : Flag :=
  { short := short, long := long, description := description, value := value }

/-- `Flag::new_bool`: value defaults to `Bool(false)`. -/
def Flag.new_bool (short long description : String) : Flag :=
  Flag.new short long description (FlagValue.bool false)

/-- `Flag::new_string`: value defaults to `String(None)`. -/
def Flag.new_string (short long description : String) : Flag :=
  Flag.new short long description (FlagValue.string none)

/-- `Flag::new_int`: value defaults to `Int(None)`. -/
def Flag.new_int (short long description : String) : Flag :=
  Flag.new short long description (FlagValue.int none)

/-- `Flag::new_float`: value defaults to `Float(None)`. -/
def Flag.new_float (short long description : String) : Flag :=
  Flag.new short long description (FlagValue.float none)

/-- `Flag::is_match` from `src/flag.rs`:
`arg == format!("{}{}", FLAG_SHORT_START, self.short) || arg == format!("{}{}", FLAG_LONG_START, self.long)`. -/
def Flag.is_match (self : Flag) (arg : String) : Bool :=
  arg == FLAG_SHORT_START ++ self.short || arg == FLAG_LONG_START ++ self.long

/-- Free function `is_flag` from `src/flag.rs`:
`arg.starts_with(FLAG_SHORT_START) || arg.starts_with(FLAG_LONG_START)`.
Rust's `str::starts_with` is embedded as a character-prefix test on the
string's character data (`String.startsWith` itself is defined by
well-founded recursion on byte positions, which the kernel cannot
evaluate). -/
def is_flag (arg : String) : Bool :=
  FLAG_SHORT_START.data.isPrefixOf arg.data || FLAG_LONG_START.data.isPrefixOf arg.data

/-- The `Display` implementation for `Flag` in `src/flag.rs`:
`"  {short_start}{short}, {long_start}{long}\t{description}"`. -/
def Flag.display (self : Flag) : String :=
  "  " ++ FLAG_SHORT_START ++ self.short ++ ", " ++ FLAG_LONG_START ++ self.long
    ++ "\t" ++ self.description

/-! ## Library model: `src/command.rs`, `src/help.rs`, `src/version.rs` -/

def HELP_SHORT : String := "h"

def HELP_LONG : String := "help"

def VERSION_SHORT : String := "v"

def VERSION_LONG : String := "version"

/-- `Command` from `src/command.rs` (the `run` callback and the two boxed
renderers carry no data relevant to the model; the branch taken by `execute`
is recorded in `ExecOutcome` instead). -/
structure Command where
  description : String
  usage : String
  flags : List Flag
  deriving DecidableEq, Repr

/-- `Command::add_flag`: `self.flags.push(flag)`. -/
def Command.add_flag (self : Command) (flag : Flag) : Command :=
  { self with flags := self.flags ++ [flag] }

/-- `Command::new` from `src/command.rs`.  `pkgName` stands for the build
constant `PKG_NAME` (`env!("CARGO_PKG_NAME")`), which is not part of the
sources. -/
def Command.new (pkgName : String) (description usage : String) : Command :=
  let command : Command := { description := description, usage := usage, flags := [] }
  let command := command.add_flag (Flag.new_bool HELP_SHORT HELP_LONG ("help for " ++ pkgName))
  let command := command.add_flag
    (Flag.new_bool VERSION_SHORT VERSION_LONG ("version for " ++ pkgName))
  command

/-- The loop body of `Command::update_flags` for a single flag token:
`for mut flag in self.flags.iter_mut() { if flag.is_match(arg) { flag.value = FlagValue::Bool(true); } }`. -/
def set_matching_flags (flags : List Flag) (arg : String) : List Flag :=
  flags.map (fun f => if f.is_match arg then { f with value := FlagValue.bool true } else f)

/-- `Command::update_flags` from `src/command.rs`: iterate over `args`; a
token that is not a flag is pushed onto `simple_args`; a flag token updates
every matching flag's value to `Bool(true)`.  Returns the final flag list
together with `simple_args`. -/
def update_flags (flags : List Flag) : List String → List Flag × List String
  | [] => (flags, [])
  | arg :: rest =>
    if !(is_flag arg) then
      let r := update_flags flags rest
      (r.1, arg :: r.2)
    else
      update_flags (set_matching_flags flags arg) rest

/-- `Command::update_flags` as a method: mutates `self.flags`, returns the
positional arguments. -/
def Command.update_flags (self : Command) (args : List String) : Command × List String :=
  let r := Cancer.update_flags self.flags args
  ({ self with flags := r.1 }, r.2)

/-- `Command::get_flags`: all flags whose short id is neither `HELP_SHORT`
nor `VERSION_SHORT`, in declaration order (reads only `self.flags`). -/
def get_flags (flags : List Flag) : List Flag :=
  flags.filter (fun f => !(f.short == HELP_SHORT || f.short == VERSION_SHORT))

/-- `Command::help_exit` (reads only `self.flags`): true iff some flag has
short id `HELP_SHORT` and value `Bool(true)`; on that flag the help text is
printed and the loop breaks. -/
def help_exit (flags : List Flag) : Bool :=
  flags.any (fun f =>
    f.short == HELP_SHORT &&
      match f.value with
      | FlagValue.bool value => value
      | _ => false)

/-- `Command::version_exit` (reads only `self.flags`): true iff some flag
has short id `VERSION_SHORT` and value `Bool(true)`. -/
def version_exit (flags : List Flag) : Bool :=
  flags.any (fun f =>
    f.short == VERSION_SHORT &&
      match f.value with
      | FlagValue.bool value => value
      | _ => false)

/-- `DefaultHelpRender::help_text` from `src/help.rs`. -/
def help_text (command : Command) : String :=
  "" ++ (command.description ++ "\n") ++ "\n" ++ "Usage:\n" ++ ("  " ++ command.usage ++ "\n")
    ++ "\n" ++ "Flags:\n"
    ++ String.join (command.flags.map (fun flag => flag.display ++ "\n"))

/-- `DefaultVersionRender::version_text` from `src/version.rs`:
`format!("{} version {}", PKG_NAME, PKG_VERSION)`.  The build constants are
the explicit parameters. -/
def version_text (pkgName pkgVersion : String) : String :=
  pkgName ++ " version " ++ pkgVersion

/-- The terminal branch taken by `Command::execute`, together with the text
it emitted (help or version) or the data passed to the `run` callback. -/
inductive ExecOutcome where
  | helpShown (text : String)
  | versionShown (text : String)
  | handlerInvoked (input : Option String) (flags : List Flag)
  | crash
  deriving DecidableEq, Repr

/-- The input the user handler received, if it was invoked. -/
def ExecOutcome.handlerInput : ExecOutcome → Option String
  | .handlerInvoked input _ => input
  | _ => none

def ExecOutcome.isHelp : ExecOutcome → Bool
  | .helpShown _ => true
  | _ => false

def ExecOutcome.isCrash : ExecOutcome → Bool
  | .crash => true
  | _ => false

/-- `Command::execute` from `src/command.rs`.  `rawArgs` is the raw process
argument vector returned by `util::get_args` (`env::args().collect()`, no
synthesis).  The indexing `&args[1]` is modelled by `List.get?`; an
out-of-bounds access is the `crash` outcome (a Rust panic). -/
def Command.execute (self : Command) (pkgName pkgVersion : String)
    (rawArgs : List String) : Command × ExecOutcome :=
  let r := Cancer.update_flags self.flags rawArgs
  let self := { self with flags := r.1 }
  let args := r.2
  if help_exit self.flags then (self, .helpShown (help_text self))
  else if version_exit self.flags then (self, .versionShown (version_text pkgName pkgVersion))
  else if args.length ≤ 1 then (self, .helpShown (help_text self))
  else
    match args.get? 1 with
    | some input => (self, .handlerInvoked (some input) (get_flags self.flags))
    | none => (self, .crash)

end Cancer

/-! ## Binary model: `src/cmd/mod.rs` -/

namespace Cmd

def FLAG_SHORT_START : String := "-"

def FLAG_LONG_START : String := "--"

def HELP_SHORT : String := "h"

def HELP_LONG : String := "help"

def VERSION_SHORT : String := "v"

def VERSION_LONG : String := "version"

/-- `FlagValue` from `src/cmd/mod.rs`: payloads are not optional here
(`String(String)`, `Int(i32)`, `Float(f32)`). -/
inductive FlagValue where
  | bool (b : Bool)
  | string (s : String)
  | int (i : Int)
  | float (bits : Nat)
  deriving DecidableEq, Repr

/-- `Flag` from `src/cmd/mod.rs`. -/
structure Flag where
  short : String
  long : String
  description : String
  value : FlagValue
  deriving DecidableEq, Repr

/-- `Command` from `src/cmd/mod.rs` (the `run` callback carries no data
relevant to the model). -/
structure Command where
  description : String
  usage : String
  flags : List Flag
  deriving DecidableEq, Repr

/-- `Command::add_flag` from `src/cmd/mod.rs`. -/
def Command.add_flag (self : Command) (short long description : String)
    (default_value : FlagValue) : Command :=
  { self with flags := self.flags ++
      [{ short := short, long := long, description := description, value := default_value }] }

/-- `Command::add_boolean_flag`: default value `Bool(false)`. -/
def Command.add_boolean_flag (self : Command) (short long description : String) : Command :=
  self.add_flag short long description (FlagValue.bool false)

/-- `Command::new` from `src/cmd/mod.rs`; `pkgName` stands for the build
constant `PKG_NAME`. -/
def Command.new (pkgName : String) (description usage : String) : Command :=
  let command : Command := { description := description, usage := usage, flags := [] }
  let command := command.add_boolean_flag HELP_SHORT HELP_LONG ("help for " ++ pkgName)
  let command := command.add_boolean_flag VERSION_SHORT VERSION_LONG ("version for " ++ pkgName)
  command

/-- `Command::get_args` from `src/cmd/mod.rs`: collect `env::args` (the
parameter `raw`) and, if it has at most one element, push a synthesized
`format!("{}{}", FLAG_SHORT_START, HELP_SHORT)` token. -/
def get_args (raw : List String) : List String :=
  if raw.length ≤ 1 then raw ++ [FLAG_SHORT_START ++ HELP_SHORT] else raw

/-- The inner loop of `Command::update_flags` in `src/cmd/mod.rs` for one
flag token (the match condition is inlined in this version of the code). -/
def set_matching_flags (flags : List Flag) (arg : String) : List Flag :=
  flags.map (fun f =>
    if arg == FLAG_SHORT_START ++ f.short || arg == FLAG_LONG_START ++ f.long then
      { f with value := FlagValue.bool true }
    else f)

/-- `Command::update_flags` from `src/cmd/mod.rs` (the prefix test is
inlined in this version of the code: `arg.starts_with(FLAG_SHORT_START) || arg.starts_with(FLAG_LONG_START)`;
`starts_with` is embedded as a character-prefix test, as in `Cancer.is_flag`). -/
def update_flags (flags : List Flag) : List String → List Flag × List String
  | [] => (flags, [])
  | arg :: rest =>
    if !(FLAG_SHORT_START.data.isPrefixOf arg.data || FLAG_LONG_START.data.isPrefixOf arg.data) then
      let r := update_flags flags rest
      (r.1, arg :: r.2)
    else
      update_flags (set_matching_flags flags arg) rest

/-- `Command::get_flags` from `src/cmd/mod.rs` (reads only `self.flags`). -/
def get_flags (flags : List Flag) : List Flag :=
  flags.filter (fun f => !(f.short == HELP_SHORT || f.short == VERSION_SHORT))

/-- `Command::help_exit` from `src/cmd/mod.rs` (reads only `self.flags`). -/
def help_exit (flags : List Flag) : Bool :=
  flags.any (fun f =>
    f.short == HELP_SHORT &&
      match f.value with
      | FlagValue.bool value => value
      | _ => false)

/-- `Command::version_exit` from `src/cmd/mod.rs` (reads only `self.flags`). -/
def version_exit (flags : List Flag) : Bool :=
  flags.any (fun f =>
    f.short == VERSION_SHORT &&
      match f.value with
      | FlagValue.bool value => value
      | _ => false)

/-- The terminal branch taken by `cmd::Command::execute`. -/
inductive ExecOutcome where
  | helpShown
  | versionShown
  | handlerInvoked (input : Option String) (flags : List Flag)
  | crash
  deriving DecidableEq, Repr

/-- `Command::execute` from `src/cmd/mod.rs`.  Unlike the library version,
`get_args` synthesizes a help token when `raw` has length at most 1, and the
access `&args[1]` at the end is unguarded: if the positional output has no
index 1 the program panics (`crash`). -/
def Command.execute (self : Command) (raw : List String) : Command × ExecOutcome :=
  let args := get_args raw
  let r := Cmd.update_flags self.flags args
  let self := { self with flags := r.1 }
  let args := r.2
  if help_exit self.flags then (self, .helpShown)
  else if version_exit self.flags then (self, .versionShown)
  else
    match args.get? 1 with
    | some input => (self, .handlerInvoked (some input) (get_flags self.flags))
    | none => (self, .crash)

end Cmd

/-- How one flag of the set relates to its successor across a partitioning
pass: identifiers and description are unchanged, and the value is either
untouched or overwritten with `Bool(true)`. -/
def Cancer.FlagUpdated (f g : Cancer.Flag) : Prop :=
  g.short = f.short ∧ g.long = f.long ∧ g.description = f.description
    ∧ (g.value = f.value ∨ g.value = Cancer.FlagValue.bool true)

/-! ## Helper lemmas -/

theorem string_append_left_cancel {a s t : String} (h : a ++ s = a ++ t) : s = t := by
  have hd := congrArg String.data h
  simp only [String.data_append] at hd
  exact String.ext (List.append_cancel_left hd)

theorem short_start_ne_long_start (l : String) :
    (("-" : String) ++ l) ≠ ("--" : String) ++ l := by
  intro h
  have hd := congrArg String.data h
  simp [String.data_append] at hd

theorem cancer_update_flags_nil (F : List Cancer.Flag) :
    Cancer.update_flags F [] = (F, []) := rfl

theorem cancer_update_flags_cons_flag (F : List Cancer.Flag) (a : String) (rest : List String)
    (h : Cancer.is_flag a = true) :
    Cancer.update_flags F (a :: rest) =
      Cancer.update_flags (Cancer.set_matching_flags F a) rest := by
  simp [Cancer.update_flags, h]

theorem cancer_update_flags_cons_nonflag (F : List Cancer.Flag) (a : String)
    (rest : List String) (h : Cancer.is_flag a = false) :
    Cancer.update_flags F (a :: rest) =
      ((Cancer.update_flags F rest).1, a :: (Cancer.update_flags F rest).2) := by
  simp [Cancer.update_flags, h]

theorem cancer_update_flags_of_no_flag_tokens (F : List Cancer.Flag) (T : List String)
    (h : ∀ t ∈ T, Cancer.is_flag t = false) : Cancer.update_flags F T = (F, T) := by
  induction T with
  | nil => rfl
  | cons a rest ih =>
    have ha : Cancer.is_flag a = false := h a (List.mem_cons_self a rest)
    have hrest := ih fun t ht => h t (List.mem_cons_of_mem a ht)
    rw [cancer_update_flags_cons_nonflag F a rest ha, hrest]

theorem cancer_update_flags_output_no_flag_tokens (T : List String) (F : List Cancer.Flag) :
    ∀ t ∈ (Cancer.update_flags F T).2, Cancer.is_flag t = false := by
  induction T generalizing F with
  | nil => intro t ht; simp [cancer_update_flags_nil] at ht
  | cons a rest ih =>
    intro t ht
    by_cases ha : Cancer.is_flag a = true
    · rw [cancer_update_flags_cons_flag F a rest ha] at ht
      exact ih _ t ht
    · have ha' : Cancer.is_flag a = false := by simpa using ha
      rw [cancer_update_flags_cons_nonflag F a rest ha'] at ht
      rcases List.mem_cons.mp ht with h | h
      · exact h ▸ ha'
      · exact ih F t h

/-! ## Claims about the matcher and the partitioner -/

/-- C3: `is_match(flag, t)` is true iff `t` equals `"-"` followed by the
short id or `"--"` followed by the long id (exact, case-sensitive equality);
in particular both canonical forms match, and `"-" ++ long` matches iff the
short and long ids coincide. -/
theorem is_match_exact_short_or_long (f : Cancer.Flag) (t : String) :
    (f.is_match t = true ↔
      (t = Cancer.FLAG_SHORT_START ++ f.short ∨ t = Cancer.FLAG_LONG_START ++ f.long))
    ∧ f.is_match (Cancer.FLAG_SHORT_START ++ f.short) = true
    ∧ f.is_match (Cancer.FLAG_LONG_START ++ f.long) = true
    ∧ (f.is_match (Cancer.FLAG_SHORT_START ++ f.long) = true ↔ f.short = f.long) := by
  have hiff : ∀ s : String, (f.is_match s = true ↔
      (s = Cancer.FLAG_SHORT_START ++ f.short ∨ s = Cancer.FLAG_LONG_START ++ f.long)) := by
    intro s
    simp [Cancer.Flag.is_match]
  refine ⟨hiff t, ?_, ?_, ?_⟩
  · rw [hiff]; exact Or.inl rfl
  · rw [hiff]; exact Or.inr rfl
  · rw [hiff]
    constructor
    · rintro (h | h)
      · exact (string_append_left_cancel (a := Cancer.FLAG_SHORT_START) h.symm)
      · exact absurd h (short_start_ne_long_start f.long)
    · intro h
      exact Or.inl (by rw [h])

/-- C4: on a token sequence with no flag-prefix tokens, `update_flags`
returns the tokens unchanged, in order, and leaves every flag's value
unchanged. -/
theorem partition_identity_without_flag_tokens (F : List Cancer.Flag) (T : List String)
    (h : ∀ t ∈ T, Cancer.is_flag t = false) : Cancer.update_flags F T = (F, T) :=
  cancer_update_flags_of_no_flag_tokens F T h

/-- Witness for C4 at a concrete flag set and token sequence. -/
theorem partition_identity_without_flag_tokens_witness :
    Cancer.is_flag "hello" = false ∧ Cancer.is_flag "world" = false
    ∧ Cancer.update_flags [Cancer.Flag.new_bool "f" "ferris" "d"] ["hello", "world"]
        = ([Cancer.Flag.new_bool "f" "ferris" "d"], ["hello", "world"]) :=
  ⟨by decide, by decide,
    partition_identity_without_flag_tokens [Cancer.Flag.new_bool "f" "ferris" "d"]
      ["hello", "world"] (by decide)⟩

/-- C5: `update_flags` is idempotent on its own positional output: running
it again on the output (with the already-updated flag set) changes neither
the flag values nor the sequence. -/
theorem partition_idempotent_on_output (F : List Cancer.Flag) (T : List String) :
    Cancer.update_flags (Cancer.update_flags F T).1 (Cancer.update_flags F T).2
      = ((Cancer.update_flags F T).1, (Cancer.update_flags F T).2) :=
  cancer_update_flags_of_no_flag_tokens _ _ (cancer_update_flags_output_no_flag_tokens T F)

/-- C6: a flag-prefix token that matches no declared flag is silently
dropped: the partition state (flags and positional output) is as if the
token were absent; concretely, with undeclared `-x`, tokens
`["-x", "world"]` partition to `["world"]` with no flag change, and
`execute` on `["prog", "-x", "world"]` invokes the handler with `"world"`. -/
theorem unrecognized_flag_token_dropped (F : List Cancer.Flag) (t : String) (T : List String)
    (hflag : Cancer.is_flag t = true) (hnomatch : ∀ f ∈ F, f.is_match t = false) :
    Cancer.update_flags F (t :: T) = Cancer.update_flags F T
    ∧ (Cancer.update_flags (Cancer.Command.new "cancer" "d" "u").flags ["-x", "world"]).2
        = ["world"]
    ∧ (Cancer.update_flags (Cancer.Command.new "cancer" "d" "u").flags ["-x", "world"]).1
        = (Cancer.Command.new "cancer" "d" "u").flags
    ∧ ((Cancer.Command.new "cancer" "d" "u").execute "cancer" "0.1.0"
        ["prog", "-x", "world"]).2
        = Cancer.ExecOutcome.handlerInvoked (some "world") [] := by
  have hset : Cancer.set_matching_flags F t = F := by
    unfold Cancer.set_matching_flags
    induction F with
    | nil => rfl
    | cons f fs ihf =>
      have hf : f.is_match t = false := hnomatch f (List.mem_cons_self f fs)
      have hfs := ihf fun g hg => hnomatch g (List.mem_cons_of_mem f hg)
      simp only [List.map_cons, hf, Bool.false_eq_true, if_neg, ite_false] at hfs ⊢
      rw [hfs]
  refine ⟨?_, by decide, by decide, by decide⟩
  rw [cancer_update_flags_cons_flag F t T hflag, hset]

/-- Witness for C6: the undeclared token `-x` is a flag token matched by no
default flag, and dropping it leaves the partition of the remaining tokens. -/
theorem unrecognized_flag_token_dropped_witness :
    Cancer.is_flag "-x" = true
    ∧ Cancer.update_flags (Cancer.Command.new "cancer" "d" "u").flags ("-x" :: ["world"])
        = Cancer.update_flags (Cancer.Command.new "cancer" "d" "u").flags ["world"] :=
  ⟨by decide,
    (unrecognized_flag_token_dropped (Cancer.Command.new "cancer" "d" "u").flags "-x"
      ["world"] (by decide) (by decide)).1⟩

/-! ## Helper lemmas for the `cmd` model and for `execute` -/

theorem cmd_update_flags_nil (F : List Cmd.Flag) : Cmd.update_flags F [] = (F, []) := rfl

theorem cmd_update_flags_cons_flag (F : List Cmd.Flag) (a : String) (rest : List String)
    (h : (Cmd.FLAG_SHORT_START.data.isPrefixOf a.data
        || Cmd.FLAG_LONG_START.data.isPrefixOf a.data) = true) :
    Cmd.update_flags F (a :: rest) = Cmd.update_flags (Cmd.set_matching_flags F a) rest := by
  simp [Cmd.update_flags, h]

theorem cmd_update_flags_cons_nonflag (F : List Cmd.Flag) (a : String) (rest : List String)
    (h : (Cmd.FLAG_SHORT_START.data.isPrefixOf a.data
        || Cmd.FLAG_LONG_START.data.isPrefixOf a.data) = false) :
    Cmd.update_flags F (a :: rest) =
      ((Cmd.update_flags F rest).1, a :: (Cmd.update_flags F rest).2) := by
  simp [Cmd.update_flags, h]

theorem cancer_execute_not_crash (c : Cancer.Command) (pn pv : String) (raw : List String) :
    ((Cancer.Command.execute c pn pv raw).2).isCrash = false := by
  unfold Cancer.Command.execute
  by_cases hh : Cancer.help_exit (Cancer.update_flags c.flags raw).1 = true
  · simp [hh, Cancer.ExecOutcome.isCrash]
  · by_cases hv : Cancer.version_exit (Cancer.update_flags c.flags raw).1 = true
    · simp [hh, hv, Cancer.ExecOutcome.isCrash]
    · by_cases hl : (Cancer.update_flags c.flags raw).2.length ≤ 1
      · simp [hh, hv, hl, Cancer.ExecOutcome.isCrash]
      · cases hga : (Cancer.update_flags c.flags raw).2.get? 1 with
        | some i =>
          have hga' : (Cancer.update_flags c.flags raw).2[1]? = some i := by
            rw [← List.get?_eq_getElem?]; exact hga
          simp [hh, hv, hl, hga', Cancer.ExecOutcome.isCrash]
        | none => exact absurd (List.get?_eq_none.mp hga) hl

/-! ## Claims about `execute` -/

/-- C2 counterexample: for the library `Command::execute`, with a declared
`-f` flag and raw arguments `["prog", "-f"]`, the Dispatch conditions hold
(help false, version false, zero positional tokens beyond the program path)
and yet execution renders help — it falls back to another behavior instead
of crashing. -/
theorem missing_input_library_fallback_not_crash :
    (Cancer.update_flags ((Cancer.Command.new "cancer" "d" "u").add_flag
        (Cancer.Flag.new_bool "f" "ferris" "fd")).flags ["prog", "-f"]).2 = ["prog"]
    ∧ Cancer.help_exit (Cancer.update_flags ((Cancer.Command.new "cancer" "d" "u").add_flag
        (Cancer.Flag.new_bool "f" "ferris" "fd")).flags ["prog", "-f"]).1 = false
    ∧ Cancer.version_exit (Cancer.update_flags ((Cancer.Command.new "cancer" "d" "u").add_flag
        (Cancer.Flag.new_bool "f" "ferris" "fd")).flags ["prog", "-f"]).1 = false
    ∧ ((((Cancer.Command.new "cancer" "d" "u").add_flag
        (Cancer.Flag.new_bool "f" "ferris" "fd")).execute "cancer" "0.1.0"
        ["prog", "-f"]).2).isCrash = false
    ∧ ((((Cancer.Command.new "cancer" "d" "u").add_flag
        (Cancer.Flag.new_bool "f" "ferris" "fd")).execute "cancer" "0.1.0"
        ["prog", "-f"]).2).isHelp = true := by
  refine ⟨by decide, by decide, by decide, by decide, by decide⟩

/-- C2 (amended): the unchecked positional access lives in the binary's
embedded `cmd::Command::execute`: whenever that `execute` reaches Dispatch
(help false, version false after partitioning) with at most one positional
token, the `&args[1]` access is out of bounds and the run crashes.  The
library's `Command::execute` never produces the crash outcome for any
input. -/
theorem cmd_dispatch_missing_input_crashes (c : Cmd.Command) (raw : List String)
    (hh : Cmd.help_exit (Cmd.update_flags c.flags (Cmd.get_args raw)).1 = false)
    (hv : Cmd.version_exit (Cmd.update_flags c.flags (Cmd.get_args raw)).1 = false)
    (hp : (Cmd.update_flags c.flags (Cmd.get_args raw)).2.length ≤ 1)
    (c2 : Cancer.Command) (pn pv : String) (raw2 : List String) :
    (Cmd.Command.execute c raw).2 = Cmd.ExecOutcome.crash
    ∧ ((Cancer.Command.execute c2 pn pv raw2).2).isCrash = false := by
  refine ⟨?_, cancer_execute_not_crash c2 pn pv raw2⟩
  have hga : (Cmd.update_flags c.flags (Cmd.get_args raw)).2[1]? = none := by
    rw [← List.get?_eq_getElem?]
    exact List.get?_eq_none.mpr hp
  simp [Cmd.Command.execute, hh, hv, hga]

/-- Witness for C2 (amended): a command with the extra flag `-f` run on
`["prog", "-f"]` reaches Dispatch with the single positional token `"prog"`
and crashes. -/
theorem cmd_dispatch_missing_input_crashes_witness :
    (Cmd.Command.execute ((Cmd.Command.new "cancer" "d" "u").add_boolean_flag
        "f" "ferris" "fd") ["prog", "-f"]).2 = Cmd.ExecOutcome.crash
    ∧ ((Cancer.Command.execute (Cancer.Command.new "cancer" "d" "u") "cancer" "0.1.0"
        ["prog"]).2).isCrash = false :=
  cmd_dispatch_missing_input_crashes
    ((Cmd.Command.new "cancer" "d" "u").add_boolean_flag "f" "ferris" "fd")
    ["prog", "-f"] (by decide) (by decide) (by decide)
    (Cancer.Command.new "cancer" "d" "u") "cancer" "0.1.0" ["prog"]

/-- C7: whenever the help flag's boolean value is true after partitioning,
`execute` emits the help text of the partitioned command and terminates
without invoking the handler; since this branch is checked before the
version branch, when both flags are true only the help text is emitted. -/
theorem help_flag_short_circuits (c : Cancer.Command) (pn pv : String) (raw : List String)
    (h : Cancer.help_exit (Cancer.update_flags c.flags raw).1 = true) :
    (Cancer.Command.execute c pn pv raw).2 =
      Cancer.ExecOutcome.helpShown
        (Cancer.help_text ((Cancer.Command.execute c pn pv raw).1)) := by
  simp [Cancer.Command.execute, h]

/-- Witness for C7 at a run in which both the help and the version flag end
up true: only help is emitted. -/
theorem help_flag_short_circuits_witness :
    ((Cancer.Command.new "cancer" "d" "u").execute "cancer" "0.1.0"
        ["prog", "-h", "-v"]).2 =
      Cancer.ExecOutcome.helpShown
        (Cancer.help_text (((Cancer.Command.new "cancer" "d" "u").execute "cancer" "0.1.0"
          ["prog", "-h", "-v"]).1)) :=
  help_flag_short_circuits (Cancer.Command.new "cancer" "d" "u") "cancer" "0.1.0"
    ["prog", "-h", "-v"] (by decide)

/-- C9: on the single user token `-v` (and likewise `--version`) after a
non-flag program-path token, with no help flag set, `execute` emits exactly
the default version renderer's text `"{pkgName} version {pkgVersion}"` and
does not invoke the handler. -/
theorem version_flag_emits_version_text (pn pv d u p : String)
    (hp : Cancer.is_flag p = false) :
    ((Cancer.Command.new pn d u).execute pn pv [p, "-v"]).2
        = Cancer.ExecOutcome.versionShown (Cancer.version_text pn pv)
    ∧ ((Cancer.Command.new pn d u).execute pn pv [p, "--version"]).2
        = Cancer.ExecOutcome.versionShown (Cancer.version_text pn pv)
    ∧ Cancer.version_text pn pv = pn ++ " version " ++ pv := by
  refine ⟨?_, ?_, rfl⟩
  · have hupd : Cancer.update_flags (Cancer.Command.new pn d u).flags [p, "-v"]
        = (Cancer.set_matching_flags (Cancer.Command.new pn d u).flags "-v", [p]) := by
      rw [cancer_update_flags_cons_nonflag _ _ _ hp,
        cancer_update_flags_cons_flag _ _ _ (by decide), cancer_update_flags_nil]
    have hh : Cancer.help_exit
        (Cancer.set_matching_flags (Cancer.Command.new pn d u).flags "-v") = false := rfl
    have hv : Cancer.version_exit
        (Cancer.set_matching_flags (Cancer.Command.new pn d u).flags "-v") = true := rfl
    simp [Cancer.Command.execute, hupd, hh, hv]
  · have hupd : Cancer.update_flags (Cancer.Command.new pn d u).flags [p, "--version"]
        = (Cancer.set_matching_flags (Cancer.Command.new pn d u).flags "--version", [p]) := by
      rw [cancer_update_flags_cons_nonflag _ _ _ hp,
        cancer_update_flags_cons_flag _ _ _ (by decide), cancer_update_flags_nil]
    have hh : Cancer.help_exit
        (Cancer.set_matching_flags (Cancer.Command.new pn d u).flags "--version") = false := rfl
    have hv : Cancer.version_exit
        (Cancer.set_matching_flags (Cancer.Command.new pn d u).flags "--version") = true := rfl
    simp [Cancer.Command.execute, hupd, hh, hv]

/-- Witness for C9 at concrete package data and program path. -/
theorem version_flag_emits_version_text_witness :
    ((Cancer.Command.new "cancer" "gives qr" "qr TEXT").execute "cancer" "0.1.0"
        ["target/debug/qr", "-v"]).2
      = Cancer.ExecOutcome.versionShown (Cancer.version_text "cancer" "0.1.0")
    ∧ Cancer.version_text "cancer" "0.1.0" = "cancer" ++ " version " ++ "0.1.0" :=
  ⟨(version_flag_emits_version_text "cancer" "0.1.0" "gives qr" "qr TEXT"
      "target/debug/qr" (by decide)).1,
   (version_flag_emits_version_text "cancer" "0.1.0" "gives qr" "qr TEXT"
      "target/debug/qr" (by decide)).2.2⟩

/-- C10: `execute` passes the full raw sequence, program path included, to
`update_flags`; a program-path token that is not a flag token therefore
occupies index 0 of the positional output, and whenever the handler is
invoked its input is the positional token at index 1, never index 0. -/
theorem program_path_stays_positional (c : Cancer.Command) (pn pv p : String)
    (rest : List String) (hp : Cancer.is_flag p = false) :
    (Cancer.update_flags c.flags (p :: rest)).2.head? = some p
    ∧ (((Cancer.Command.execute c pn pv (p :: rest)).2).handlerInput = none
       ∨ ((Cancer.Command.execute c pn pv (p :: rest)).2).handlerInput
           = (Cancer.update_flags c.flags (p :: rest)).2.get? 1) := by
  constructor
  · rw [cancer_update_flags_cons_nonflag c.flags p rest hp]
    rfl
  · by_cases hh : Cancer.help_exit (Cancer.update_flags c.flags (p :: rest)).1 = true
    · exact Or.inl (by simp [Cancer.Command.execute, hh, Cancer.ExecOutcome.handlerInput])
    · by_cases hv : Cancer.version_exit (Cancer.update_flags c.flags (p :: rest)).1 = true
      · exact Or.inl (by simp [Cancer.Command.execute, hh, hv, Cancer.ExecOutcome.handlerInput])
      · by_cases hl : (Cancer.update_flags c.flags (p :: rest)).2.length ≤ 1
        · exact Or.inl
            (by simp [Cancer.Command.execute, hh, hv, hl, Cancer.ExecOutcome.handlerInput])
        · cases hga : (Cancer.update_flags c.flags (p :: rest)).2.get? 1 with
          | some i =>
            refine Or.inr ?_
            have hga' : (Cancer.update_flags c.flags (p :: rest)).2[1]? = some i := by
              rw [← List.get?_eq_getElem?]; exact hga
            simp [Cancer.Command.execute, hh, hv, hl, hga', hga,
              Cancer.ExecOutcome.handlerInput]
          | none =>
            refine Or.inl ?_
            have hga' : (Cancer.update_flags c.flags (p :: rest)).2[1]? = none := by
              rw [← List.get?_eq_getElem?]; exact hga
            simp [Cancer.Command.execute, hh, hv, hl, hga', Cancer.ExecOutcome.handlerInput]

/-- Witness for C10: concrete command and arguments on which the handler is
invoked; the program path is positional index 0 and the input is index 1. -/
theorem program_path_stays_positional_witness :
    (Cancer.update_flags (Cancer.Command.new "cancer" "d" "u").flags
        ("target/debug/hello" :: ["world"])).2.head? = some "target/debug/hello"
    ∧ ((((Cancer.Command.new "cancer" "d" "u").execute "cancer" "0.1.0"
          ("target/debug/hello" :: ["world"])).2).handlerInput = none
       ∨ (((Cancer.Command.new "cancer" "d" "u").execute "cancer" "0.1.0"
          ("target/debug/hello" :: ["world"])).2).handlerInput
           = (Cancer.update_flags (Cancer.Command.new "cancer" "d" "u").flags
              ("target/debug/hello" :: ["world"])).2.get? 1) :=
  program_path_stays_positional (Cancer.Command.new "cancer" "d" "u") "cancer" "0.1.0"
    "target/debug/hello" ["world"] (by decide)

/-! ## Help-flag propagation in the `cmd` model (for C8) -/

theorem cmd_image_short (f : Cmd.Flag) (a : String) :
    (if (a == Cmd.FLAG_SHORT_START ++ f.short || a == Cmd.FLAG_LONG_START ++ f.long) then
      { f with value := Cmd.FlagValue.bool true } else f).short = f.short := by
  split <;> rfl

theorem cmd_image_value (f : Cmd.Flag) (a : String) :
    ((if (a == Cmd.FLAG_SHORT_START ++ f.short || a == Cmd.FLAG_LONG_START ++ f.long) then
        { f with value := Cmd.FlagValue.bool true } else f).value = f.value
     ∨ (if (a == Cmd.FLAG_SHORT_START ++ f.short || a == Cmd.FLAG_LONG_START ++ f.long) then
        { f with value := Cmd.FlagValue.bool true } else f).value = Cmd.FlagValue.bool true) := by
  split
  · exact Or.inr rfl
  · exact Or.inl rfl

theorem cmd_image_mem (F : List Cmd.Flag) (a : String) (f : Cmd.Flag) (hf : f ∈ F) :
    (if (a == Cmd.FLAG_SHORT_START ++ f.short || a == Cmd.FLAG_LONG_START ++ f.long) then
      { f with value := Cmd.FlagValue.bool true } else f) ∈ Cmd.set_matching_flags F a :=
  List.mem_map_of_mem _ hf

theorem cmd_help_true_preserved (T : List String) : ∀ F : List Cmd.Flag,
    (∃ f ∈ F, f.short = Cmd.HELP_SHORT ∧ f.value = Cmd.FlagValue.bool true) →
    ∃ f ∈ (Cmd.update_flags F T).1,
      f.short = Cmd.HELP_SHORT ∧ f.value = Cmd.FlagValue.bool true := by
  induction T with
  | nil => intro F h; exact h
  | cons a rest ih =>
    intro F h
    obtain ⟨f, hf, hshort, hval⟩ := h
    cases ha : (Cmd.FLAG_SHORT_START.data.isPrefixOf a.data
        || Cmd.FLAG_LONG_START.data.isPrefixOf a.data) with
    | true =>
      rw [cmd_update_flags_cons_flag F a rest ha]
      refine ih _ ⟨_, cmd_image_mem F a f hf, ?_, ?_⟩
      · rw [cmd_image_short f a]; exact hshort
      · rcases cmd_image_value f a with hsame | htrue
        · rw [hsame]; exact hval
        · exact htrue
    | false =>
      rw [cmd_update_flags_cons_nonflag F a rest ha]
      exact ih F ⟨f, hf, hshort, hval⟩

theorem cmd_update_sets_help (T : List String) : ∀ F : List Cmd.Flag,
    (∃ f ∈ F, f.short = Cmd.HELP_SHORT) →
    (Cmd.FLAG_SHORT_START ++ Cmd.HELP_SHORT) ∈ T →
    ∃ f ∈ (Cmd.update_flags F T).1,
      f.short = Cmd.HELP_SHORT ∧ f.value = Cmd.FlagValue.bool true := by
  induction T with
  | nil => intro F _ htok; cases htok
  | cons a rest ih =>
    intro F hmem htok
    obtain ⟨f, hf, hshort⟩ := hmem
    rcases List.mem_cons.mp htok with heq | hrest
    · subst heq
      have ha : (Cmd.FLAG_SHORT_START.data.isPrefixOf
            (Cmd.FLAG_SHORT_START ++ Cmd.HELP_SHORT).data
          || Cmd.FLAG_LONG_START.data.isPrefixOf
            (Cmd.FLAG_SHORT_START ++ Cmd.HELP_SHORT).data) = true := by decide
      rw [cmd_update_flags_cons_flag F _ rest ha]
      apply cmd_help_true_preserved rest
      refine ⟨_, cmd_image_mem F _ f hf, ?_, ?_⟩
      · rw [cmd_image_short f _]; exact hshort
      · have hc : ((Cmd.FLAG_SHORT_START ++ Cmd.HELP_SHORT)
              == Cmd.FLAG_SHORT_START ++ f.short
            || (Cmd.FLAG_SHORT_START ++ Cmd.HELP_SHORT)
              == Cmd.FLAG_LONG_START ++ f.long) = true := by
          rw [hshort]; simp
        simp [hc]
    · cases ha : (Cmd.FLAG_SHORT_START.data.isPrefixOf a.data
          || Cmd.FLAG_LONG_START.data.isPrefixOf a.data) with
      | true =>
        rw [cmd_update_flags_cons_flag F a rest ha]
        refine ih _ ⟨_, cmd_image_mem F a f hf, ?_⟩ hrest
        rw [cmd_image_short f a]; exact hshort
      | false =>
        rw [cmd_update_flags_cons_nonflag F a rest ha]
        exact ih F ⟨f, hf, hshort⟩ hrest

theorem cmd_help_exit_of_exists (F : List Cmd.Flag)
    (h : ∃ f ∈ F, f.short = Cmd.HELP_SHORT ∧ f.value = Cmd.FlagValue.bool true) :
    Cmd.help_exit F = true := by
  obtain ⟨f, hf, h1, h2⟩ := h
  refine List.any_eq_true.mpr ⟨f, hf, ?_⟩
  rw [h1, h2]
  decide

/-- C8: with zero user-supplied tokens (at most the program-path token),
execution renders help and does not invoke the handler.  In the binary's
`cmd` model this holds because `get_args` synthesizes a `-h` token (even
with arbitrary extra flags declared); in the library model it holds because
`execute` prints help when the positional output has length at most 1
(given that the program path is not itself a flag token and the version
flag is not already set). -/
theorem no_user_tokens_shows_help
    (pn d u : String) (extra : List Cmd.Flag) (raw : List String)
    (hlen : raw.length ≤ 1)
    (c : Cancer.Command) (pn2 pv2 : String) (raw2 : List String)
    (hlen2 : raw2.length ≤ 1)
    (hnoflag : ∀ t ∈ raw2, Cancer.is_flag t = false)
    (hv : Cancer.version_exit c.flags = false) :
    (Cmd.Command.execute
        { Cmd.Command.new pn d u with flags := (Cmd.Command.new pn d u).flags ++ extra }
        raw).2 = Cmd.ExecOutcome.helpShown
    ∧ ((Cancer.Command.execute c pn2 pv2 raw2).2).isHelp = true := by
  constructor
  · have hget : Cmd.get_args raw = raw ++ [Cmd.FLAG_SHORT_START ++ Cmd.HELP_SHORT] := by
      simp [Cmd.get_args, hlen]
    have hmem : ∃ f ∈ ((Cmd.Command.new pn d u).flags ++ extra),
        f.short = Cmd.HELP_SHORT :=
      ⟨_, List.mem_append_left extra (List.mem_cons_self _ _), rfl⟩
    have htok : (Cmd.FLAG_SHORT_START ++ Cmd.HELP_SHORT) ∈ Cmd.get_args raw := by
      rw [hget]
      exact List.mem_append_right raw (List.mem_singleton.mpr rfl)
    have hset := cmd_update_sets_help (Cmd.get_args raw) _ hmem htok
    have hexit := cmd_help_exit_of_exists _ hset
    simp [Cmd.Command.execute, hexit]
  · have hupd := cancer_update_flags_of_no_flag_tokens c.flags raw2 hnoflag
    by_cases hh : Cancer.help_exit c.flags = true
    · simp [Cancer.Command.execute, hupd, hh, Cancer.ExecOutcome.isHelp]
    · simp [Cancer.Command.execute, hupd, hh, hv, hlen2, Cancer.ExecOutcome.isHelp]

/-- Witness for C8: the single program-path token `"prog"` leads both
models to render help. -/
theorem no_user_tokens_shows_help_witness :
    (Cmd.Command.execute
        { Cmd.Command.new "cancer" "d" "u" with
          flags := (Cmd.Command.new "cancer" "d" "u").flags ++ [] } ["prog"]).2
      = Cmd.ExecOutcome.helpShown
    ∧ ((Cancer.Command.execute (Cancer.Command.new "cancer" "d" "u") "cancer" "0.1.0"
        ["prog"]).2).isHelp = true :=
  no_user_tokens_shows_help "cancer" "d" "u" [] ["prog"] (by decide)
    (Cancer.Command.new "cancer" "d" "u") "cancer" "0.1.0" ["prog"]
    (by decide) (by decide) (by decide)

/-! ## Variant behaviour across partitioning (for C1) -/

theorem flagUpdated_refl (f : Cancer.Flag) : Cancer.FlagUpdated f f :=
  ⟨rfl, rfl, rfl, Or.inl rfl⟩

theorem flagUpdated_trans {f g h : Cancer.Flag} (h1 : Cancer.FlagUpdated f g)
    (h2 : Cancer.FlagUpdated g h) : Cancer.FlagUpdated f h := by
  obtain ⟨a1, b1, c1, d1⟩ := h1
  obtain ⟨a2, b2, c2, d2⟩ := h2
  refine ⟨a2.trans a1, b2.trans b1, c2.trans c1, ?_⟩
  rcases d2 with d2 | d2
  · rcases d1 with d1 | d1
    · exact Or.inl (d2.trans d1)
    · exact Or.inr (d2.trans d1)
  · exact Or.inr d2

theorem cancer_image_flagUpdated (f : Cancer.Flag) (a : String) :
    Cancer.FlagUpdated f
      (if f.is_match a then { f with value := Cancer.FlagValue.bool true } else f) := by
  split
  · exact ⟨rfl, rfl, rfl, Or.inr rfl⟩
  · exact flagUpdated_refl f

theorem forall₂_flagUpdated_map (G F : List Cancer.Flag) (a : String)
    (h : List.Forall₂ Cancer.FlagUpdated G F) :
    List.Forall₂ Cancer.FlagUpdated G (Cancer.set_matching_flags F a) := by
  induction h with
  | nil => exact List.Forall₂.nil
  | cons hgf hrest ih =>
    exact List.Forall₂.cons (flagUpdated_trans hgf (cancer_image_flagUpdated _ a)) ih

theorem forall₂_flagUpdated_refl (F : List Cancer.Flag) :
    List.Forall₂ Cancer.FlagUpdated F F := by
  induction F with
  | nil => exact List.Forall₂.nil
  | cons f fs ih => exact List.Forall₂.cons (flagUpdated_refl f) ih

theorem cancer_update_flags_forall₂ (T : List String) : ∀ F G : List Cancer.Flag,
    List.Forall₂ Cancer.FlagUpdated G F →
    List.Forall₂ Cancer.FlagUpdated G (Cancer.update_flags F T).1 := by
  induction T with
  | nil => intro F G h; exact h
  | cons a rest ih =>
    intro F G h
    cases ha : Cancer.is_flag a with
    | true =>
      rw [cancer_update_flags_cons_flag F a rest ha]
      exact ih _ G (forall₂_flagUpdated_map G F a h)
    | false =>
      rw [cancer_update_flags_cons_nonflag F a rest ha]
      exact ih F G h

/-- C1 counterexample: partitioning a declared String-variant flag against a
matching token rewrites its value to `Bool(true)` — the active variant is
not preserved. -/
theorem partition_changes_variant_counterexample :
    (Cancer.Flag.new_string "f" "ferris" "d").value.kind = Cancer.FlagKind.string
    ∧ (Cancer.update_flags [Cancer.Flag.new_string "f" "ferris" "d"] ["-f"]).1.map
        (fun f => f.value.kind) = [Cancer.FlagKind.bool]
    ∧ Cancer.FlagKind.bool ≠ Cancer.FlagKind.string := by
  refine ⟨rfl, by decide, by decide⟩

/-- C1 (amended): each constructor fixes the variant of the declared value
(`new_bool` → Bool, `new_string` → String, `new_int` → Int, `new_float` →
Float), and the partition step `update_flags` never touches a flag's
identifiers or description and either leaves its value unchanged or
overwrites it with `Bool(true)`; consequently a Bool-variant flag never
changes variant, but a String/Int/Float-variant flag matched by some token
has its variant changed to Bool. -/
theorem constructors_fix_variant_partition_writes_bool (s l d : String)
    (F : List Cancer.Flag) (T : List String) :
    (Cancer.Flag.new_bool s l d).value.kind = Cancer.FlagKind.bool
    ∧ (Cancer.Flag.new_string s l d).value.kind = Cancer.FlagKind.string
    ∧ (Cancer.Flag.new_int s l d).value.kind = Cancer.FlagKind.int
    ∧ (Cancer.Flag.new_float s l d).value.kind = Cancer.FlagKind.float
    ∧ List.Forall₂ Cancer.FlagUpdated F (Cancer.update_flags F T).1 :=
  ⟨rfl, rfl, rfl, rfl, cancer_update_flags_forall₂ T F F (forall₂_flagUpdated_refl F)⟩
